import Mathlib

/-!
A verification development for the braille autocorrect program
(`src/braille01.py`).  The Python code is shallowly embedded: strings are
`List Char`, Python `dict`s are association lists (insertion ordered, as
Python dicts are), the Python `set` used for the word dictionary is a
duplicate-free insertion-ordered list, and the float scores are exact
rationals (`ℚ`).  Python's `list.sort(key=..., reverse=True)` is a stable
sort by one numeric key; it is embedded as `List.insertionSort` with the
reversed comparison, which is stable in exactly the same way.
-/

set_option maxRecDepth 20000
set_option maxHeartbeats 1600000

/-- `String` literal to the underlying character list. -/
def strL (s : String) : List Char := s.data

/-- Python `str.lower()` (the program only ever holds ASCII text). -/
def toLowerStr (l : List Char) : List Char := l.map Char.toLower

/-- Python `str.strip()`: drop whitespace from both ends. -/
def trimStr (l : List Char) : List Char :=
  ((l.dropWhile (fun c => c.isWhitespace)).reverse.dropWhile (fun c => c.isWhitespace)).reverse

/-- Python `dict` lookup (`d.get(k)` / `k in d`). -/
def alLookup {α β : Type} [DecidableEq α] (k : α) : List (α × β) → Option β
  | [] => none
  | p :: rest => if p.1 = k then some p.2 else alLookup k rest

/-- Python `dict` assignment `d[k] = v`: overwrite in place, else append. -/
def alSet {α β : Type} [DecidableEq α] (k : α) (v : β) : List (α × β) → List (α × β)
  | [] => [(k, v)]
  | p :: rest => if p.1 = k then (k, v) :: rest else p :: alSet k v rest

/-- Python `str.split()`: split on whitespace runs, dropping empty pieces. -/
def splitWS (l : List Char) : List (List Char) :=
  (l.splitOnP (fun c => c.isWhitespace)).filter (fun w => !w.isEmpty)

/-- The `BRAILLE_KEYS` dict: QWERTY keys to braille dots. -/
def BRAILLE_KEYS : Char → Option Nat
  | 'D' => some 1
  | 'W' => some 2
  | 'Q' => some 3
  | 'K' => some 4
  | 'O' => some 5
  | 'P' => some 6
  | _ => none

/-- The `DOT_TO_LETTER` dict: canonical (sorted) dot patterns to letters. -/
def DOT_TO_LETTER : List (List Nat × Char) :=
  [([1], 'a'), ([1, 2], 'b'), ([1, 4], 'c'), ([1, 4, 5], 'd'), ([1, 5], 'e'),
   ([1, 2, 4], 'f'), ([1, 2, 4, 5], 'g'), ([1, 2, 5], 'h'), ([2, 4], 'i'), ([2, 4, 5], 'j'),
   ([1, 3], 'k'), ([1, 2, 3], 'l'), ([1, 3, 4], 'm'), ([1, 3, 4, 5], 'n'), ([1, 3, 5], 'o'),
   ([1, 2, 3, 4], 'p'), ([1, 2, 3, 4, 5], 'q'), ([1, 2, 3, 5], 'r'), ([2, 3, 4], 's'),
   ([2, 3, 4, 5], 't'), ([1, 3, 6], 'u'), ([1, 2, 3, 6], 'v'), ([2, 4, 5, 6], 'w'),
   ([1, 3, 4, 6], 'x'), ([1, 3, 4, 5, 6], 'y'), ([1, 3, 5, 6], 'z')]

/-- `dots_to_letter`: sort the accumulated dot set, look it up, default `?`. -/
def dots_to_letter (dots : List Nat) : Char :=
  (alLookup (List.insertionSort (· ≤ ·) dots) DOT_TO_LETTER).getD '?'

/-- One iteration of the character loop in `convert_braille_input`.
State: output so far and the accumulated dot set of the current chord. -/
def convStep (st : List Char × List Nat) (ch : Char) : List Char × List Nat :=
  if ch = ' ' then
    ((if st.2 = [] then st.1 else st.1 ++ [dots_to_letter st.2]) ++ [' '], [])
  else
    match BRAILLE_KEYS ch with
    | some d => (st.1, st.2.insert d)
    | none => ((if st.2 = [] then st.1 else st.1 ++ [dots_to_letter st.2]) ++ [ch.toLower], [])

/-- `convert_braille_input`: decode chorded QWERTY braille input to text. -/
def convert_braille_input (input_text : List Char) : List Char :=
  let st := (input_text.map Char.toUpper).foldl convStep ([], [])
  if st.2 = [] then st.1 else st.1 ++ [dots_to_letter st.2]

/-- One row of the distance matrix of `calculate_similarity`: row `i+1`
starts from its first-column base case `i+1` and is filled left to right
from the previous row `prev` (deletion, insertion, substitution of
`word1[i]` / `word2[j]`, exactly the three terms minimized by the loop
body). -/
def editRow (word1 word2 : List Char) (i : Nat) (prev : Nat → Nat) : Nat → Nat
  | 0 => i + 1
  | j + 1 =>
    min (prev (j + 1) + 1)
      (min (editRow word1 word2 i prev j + 1)
        (prev j + if word1.getD i ' ' = word2.getD j ' ' then 0 else 1))

/-- The distance matrix of `calculate_similarity`, row by row: row 0 is
the base row `matrix[0][j] = j`, and each later row is computed from its
predecessor, as the loops fill it. -/
def editMatrix (word1 word2 : List Char) : Nat → Nat → Nat
  | 0 => fun j => j
  | i + 1 => editRow word1 word2 i (editMatrix word1 word2 i)

/-- `calculate_similarity`: equal words short-circuit to 0, otherwise the
bottom-right cell of the dynamic-programming matrix. -/
def calculate_similarity (word1 word2 : List Char) : Nat :=
  if word1 = word2 then 0
  else editMatrix word1 word2 word1.length word2.length

/-- The reference recursive definition of Levenshtein edit distance:
minimum number of single-character insertions, deletions and
substitutions transforming one string into the other. -/
def levRef : List Char → List Char → Nat
  | [], ys => ys.length
  | x :: xs, [] => (x :: xs).length
  | x :: xs, y :: ys =>
    min (levRef xs (y :: ys) + 1)
      (min (levRef (x :: xs) ys + 1) (levRef xs ys + if x = y then 0 else 1))
  termination_by xs ys => xs.length + ys.length
  decreasing_by all_goals (simp only [List.length_cons]; omega)

/-- The mutable state of a `SimpleBrailleAutocorrect` object. -/
structure BrailleState where
  dictionary : List (List Char)
  word_count : List (List Char × Nat)
  learned_fixes : List (List Char × List Char)
deriving DecidableEq

/-- `add_word`: lowercase and strip; ignore the empty word; add to the
dictionary set and bump the usage count. -/
def add_word (st : BrailleState) (w : List Char) : BrailleState :=
  let word := trimStr (toLowerStr w)
  if word = [] then st
  else
    { dictionary := if word ∈ st.dictionary then st.dictionary else st.dictionary ++ [word]
      word_count := alSet word ((alLookup word st.word_count).getD 0 + 1) st.word_count
      learned_fixes := st.learned_fixes }

/-- The builtin word list of `load_basic_words`. -/
def basic_words : List String :=
  ["the", "and", "for", "are", "but", "not", "you", "all", "can", "had",
   "her", "was", "one", "our", "out", "day", "get", "has", "him", "his",
   "how", "man", "new", "now", "old", "see", "two", "way", "who", "boy",
   "did", "its", "let", "put", "say", "she", "too", "use", "good", "have",
   "just", "like", "over", "also", "back", "call", "came", "each", "find",
   "give", "hand", "here", "keep", "kind", "know", "last", "left", "life",
   "live", "look", "made", "make", "most", "move", "must", "name", "need",
   "only", "open", "part", "play", "right", "said", "same", "seem", "show",
   "side", "take", "tell", "turn", "want", "well", "went", "were", "what",
   "when", "where", "which", "will", "with", "word", "work", "world", "year",
   "hello", "computer", "braille", "system", "keyboard", "typing", "input"]

/-- `load_basic_words`: feed every builtin word through `add_word`. -/
def load_basic_words (st : BrailleState) : BrailleState :=
  (basic_words.map strL).foldl add_word st

/-- `__init__`: empty maps, then the builtin word list is loaded. -/
def initial_state : BrailleState :=
  load_basic_words { dictionary := [], word_count := [], learned_fixes := [] }

/-- The body of the candidate loop in `find_suggestions`: admit a
dictionary word iff its distance is within the threshold, scoring it by
similarity and frequency. -/
def suggestionEntry (st : BrailleState) (word : List Char) (max_distance : Nat)
    (dict_word : List Char) : Option (List Char × ℚ × Nat) :=
  let distance := calculate_similarity word dict_word
  if distance ≤ max_distance then
    let similarity_score : ℚ :=
      1 - (distance : ℚ) / ((max word.length dict_word.length : Nat) : ℚ)
    let frequency_score : ℚ := (((alLookup dict_word st.word_count).getD 1 : Nat) : ℚ)
    some (dict_word, similarity_score * 0.7 + (frequency_score / 100) * 0.3, distance)
  else none

/-- `find_suggestions`: exact dictionary hit, else learned fix, else the
threshold-filtered, score-sorted fuzzy candidates (top `max_suggestions`). -/
def find_suggestions (st : BrailleState) (word0 : List Char) (max_suggestions : Nat) :
    List (List Char) :=
  let word := toLowerStr word0
  if word ∈ st.dictionary then [word]
  else
    match alLookup word st.learned_fixes with
    | some fix => [fix]
    | none =>
      let max_distance := min 3 (word.length / 2 + 1)
      let suggestions := st.dictionary.filterMap (suggestionEntry st word max_distance)
      let sorted := List.insertionSort (fun a b => b.2.1 ≤ a.2.1) suggestions
      (sorted.take max_suggestions).map (fun t => t.1)

/-- One entry of the list returned by `autocorrect`. -/
structure CorrectionResult where
  original : List Char
  suggestions : List (List Char)
  best_match : List Char
deriving DecidableEq

/-- `autocorrect`: decode if any chord key occurs in the text, split into
tokens, and correct each token via `find_suggestions` on its alphabetic
kernel. -/
def autocorrect (st : BrailleState) (text0 : List Char) (max_suggestions : Nat) :
    List CorrectionResult :=
  let text := if (text0.map Char.toUpper).any (fun c => (strL ("DWQKOP")).contains c)
              then convert_braille_input text0 else text0
  (splitWS text).map (fun word =>
    let clean_word := word.filter (fun c => c.isAlpha)
    if clean_word ≠ [] then
      match find_suggestions st clean_word max_suggestions with
      | s :: rest => { original := word, suggestions := s :: rest, best_match := s }
      | [] => { original := word, suggestions := [], best_match := word }
    else { original := word, suggestions := [word], best_match := word })

/-- `learn_correction`: lowercase both words, record the fix (most recent
write wins), then add the correct word to the dictionary. -/
def learn_correction (st : BrailleState) (wrong_word correct_word : List Char) : BrailleState :=
  let wrong := toLowerStr wrong_word
  let correct := toLowerStr correct_word
  add_word { st with learned_fixes := alSet wrong correct st.learned_fixes } correct

/-- `get_stats`: word count, learned-fix count, and the five most common
words by usage count (stable descending sort, as Python's). -/
def get_stats (st : BrailleState) : Nat × Nat × List (List Char × Nat) :=
  (st.dictionary.length, st.learned_fixes.length,
    (List.insertionSort (fun a b : List Char × Nat => b.2 ≤ a.2) st.word_count).take 5)

/-- The key on the QWERTY side of each braille dot (the inverse of the
`BRAILLE_KEYS` table). -/
def dotKey : Nat → Char
  | 1 => 'D'
  | 2 => 'W'
  | 3 => 'Q'
  | 4 => 'K'
  | 5 => 'O'
  | 6 => 'P'
  | _ => '?'

/-- The dot set `convStep` accumulates over a run of chord-key
characters (proof helper for the decoding invariant). -/
def dotsFold (l : List Char) (acc : List Nat) : List Nat :=
  l.foldl (fun s c =>
    match BRAILLE_KEYS c with
    | some d => s.insert d
    | none => s) acc

/-- Lexicon states reachable from the freshly initialized object by any
sequence of `add_word` and `learn_correction` calls. -/
inductive Reachable : BrailleState → Prop
  | init : Reachable initial_state
  | add (st : BrailleState) (w : List Char) : Reachable st → Reachable (add_word st w)
  | learn (st : BrailleState) (w c : List Char) :
      Reachable st → Reachable (learn_correction st w c)

/-! State-passing forms of the query methods.  Each mirrors its Python
method with the object state threaded explicitly: none of the method
bodies assigns to `self`, so each returns the state it was given. -/

/-- `convert_braille_input` as a method call: reads no field, writes none. -/
def convert_braille_input_m (st : BrailleState) (input_text : List Char) :
    List Char × BrailleState :=
  (convert_braille_input input_text, st)

/-- `calculate_similarity` as a method call: reads no field, writes none. -/
def calculate_similarity_m (st : BrailleState) (w1 w2 : List Char) : Nat × BrailleState :=
  (calculate_similarity w1 w2, st)

/-- `find_suggestions` as a method call: reads the three fields, writes none. -/
def find_suggestions_m (st : BrailleState) (w : List Char) (n : Nat) :
    List (List Char) × BrailleState :=
  (find_suggestions st w n, st)

/-- `get_stats` as a method call: reads the three fields, writes none. -/
def get_stats_m (st : BrailleState) : (Nat × Nat × List (List Char × Nat)) × BrailleState :=
  (get_stats st, st)

/-- The per-token loop body of `autocorrect`, threading the state through
the `find_suggestions` call it makes. -/
def autocorrectToken_m (n : Nat) (acc : List CorrectionResult × BrailleState)
    (word : List Char) : List CorrectionResult × BrailleState :=
  let clean_word := word.filter (fun c => c.isAlpha)
  if clean_word ≠ [] then
    let q := find_suggestions_m acc.2 clean_word n
    match q.1 with
    | s :: rest =>
      (acc.1 ++ [{ original := word, suggestions := s :: rest, best_match := s }], q.2)
    | [] => (acc.1 ++ [{ original := word, suggestions := [], best_match := word }], q.2)
  else (acc.1 ++ [{ original := word, suggestions := [word], best_match := word }], acc.2)

/-- `autocorrect` as a method call, state threaded through the decode
step and the per-token loop. -/
def autocorrect_m (st : BrailleState) (text0 : List Char) (n : Nat) :
    List CorrectionResult × BrailleState :=
  let p := if (text0.map Char.toUpper).any (fun c => (strL ("DWQKOP")).contains c)
           then convert_braille_input_m st text0 else (text0, st)
  (splitWS p.1).foldl (autocorrectToken_m n) ([], p.2)

/-! ### Edit distance: the DP matrix computes the reference recursive definition -/

theorem levRef_nil_right (xs : List Char) : levRef xs [] = xs.length := by
  cases xs <;> simp [levRef]

theorem levRef_self (xs : List Char) : levRef xs xs = 0 := by
  induction xs with
  | nil => simp [levRef]
  | cons x xs ih => simp [levRef, ih]

theorem levRef_snoc (a b : Char) (xs ys : List Char) :
    levRef (xs ++ [a]) (ys ++ [b]) =
      min (levRef xs (ys ++ [b]) + 1)
        (min (levRef (xs ++ [a]) ys + 1) (levRef xs ys + if a = b then 0 else 1)) := by
  induction xs generalizing ys with
  | nil =>
    induction ys with
    | nil => simp [levRef]
    | cons y ys ihy =>
      simp only [List.nil_append, List.cons_append] at ihy ⊢
      simp only [levRef, levRef_nil_right, List.length_append, List.length_cons,
        List.length_nil] at ihy ⊢
      omega
  | cons x xs ihx =>
    induction ys with
    | nil =>
      have e1 := ihx []
      clear ihx
      simp only [List.nil_append, List.cons_append] at e1 ⊢
      simp only [levRef, levRef_nil_right, List.length_append, List.length_cons,
        List.length_nil] at e1 ⊢
      omega
    | cons y ys ihy =>
      have e1 := ihx (y :: ys)
      have e2 := ihx ys
      clear ihx
      simp only [List.nil_append, List.cons_append] at e1 e2 ihy ⊢
      simp only [levRef] at e1 e2 ihy ⊢
      rw [ihy, e1, e2]
      clear e1 e2 ihy
      apply le_antisymm <;> simp only [le_min_iff, min_le_iff] <;> omega

theorem editMatrix_succ_succ (w1 w2 : List Char) (i j : Nat) :
    editMatrix w1 w2 (i + 1) (j + 1) =
      min (editMatrix w1 w2 i (j + 1) + 1)
        (min (editMatrix w1 w2 (i + 1) j + 1)
          (editMatrix w1 w2 i j + if w1.getD i ' ' = w2.getD j ' ' then 0 else 1)) := rfl

theorem editMatrix_eq_levRef (w1 w2 : List Char) (i j : Nat)
    (hi : i ≤ w1.length) (hj : j ≤ w2.length) :
    editMatrix w1 w2 i j = levRef (w1.take i) (w2.take j) := by
  induction i generalizing j with
  | zero =>
    simp [editMatrix, levRef, List.length_take, Nat.min_eq_left hj]
  | succ i ihi =>
    induction j with
    | zero =>
      simp [editMatrix, editRow, levRef_nil_right, List.length_take, Nat.min_eq_left hi]
    | succ j ihj =>
      have hi' : i < w1.length := hi
      have hj' : j < w2.length := hj
      have t1 : w1.take (i + 1) = w1.take i ++ [w1.get ⟨i, hi'⟩] := by
        rw [List.take_succ, List.getElem?_eq_getElem hi']
        simp
      have t2 : w2.take (j + 1) = w2.take j ++ [w2.get ⟨j, hj'⟩] := by
        rw [List.take_succ, List.getElem?_eq_getElem hj']
        simp
      rw [editMatrix_succ_succ, t1, t2, levRef_snoc, ← t1, ← t2]
      rw [ihi (j + 1) (Nat.le_of_lt hi') hj, ihi j (Nat.le_of_lt hi') (Nat.le_of_lt hj'),
        ihj (Nat.le_of_lt hj')]
      rw [List.getD_eq_getElem w1 ' ' hi', List.getD_eq_getElem w2 ' ' hj']
      rfl

theorem calculate_similarity_eq_levRef (w1 w2 : List Char) :
    calculate_similarity w1 w2 = levRef w1 w2 := by
  unfold calculate_similarity
  split
  · next h => rw [h, levRef_self]
  · rw [editMatrix_eq_levRef w1 w2 _ _ le_rfl le_rfl, List.take_length, List.take_length]

/-- C2: `calculate_similarity` computes the Levenshtein edit distance, as
given by the reference recursive definition `levRef` (minimum number of
single-character insertions, deletions and substitutions). -/
theorem claim_C2 (w1 w2 : List Char) : calculate_similarity w1 w2 = levRef w1 w2 :=
  calculate_similarity_eq_levRef w1 w2

/-! ### Lexicon and matcher claims -/

theorem alLookup_alSet_self {α β : Type} [DecidableEq α] (k : α) (v : β) (l : List (α × β)) :
    alLookup k (alSet k v l) = some v := by
  induction l with
  | nil => simp [alSet, alLookup]
  | cons p rest ih =>
    by_cases hp : p.1 = k
    · simp [alSet, hp, alLookup]
    · simp [alSet, hp, alLookup, ih]

/-- C4: a word whose lowercase form is already in the dictionary is
returned alone, before the learned-fix lookup or the fuzzy search. -/
theorem claim_C4 (st : BrailleState) (w : List Char) (n : Nat)
    (h : toLowerStr w ∈ st.dictionary) (hn : 1 ≤ n) :
    find_suggestions st w n = [toLowerStr w] := by
  unfold find_suggestions
  simp [h]

theorem claim_C4_witness :
    toLowerStr (strL ("The")) ∈ [strL ("the")] ∧ 1 ≤ (1 : Nat) ∧
      find_suggestions ⟨[strL ("the")], [(strL ("the"), 1)], []⟩ (strL ("The")) 1
        = [toLowerStr (strL ("The"))] :=
  ⟨by decide, by decide,
    claim_C4 ⟨[strL ("the")], [(strL ("the"), 1)], []⟩ (strL ("The")) 1 (by decide) (by decide)⟩

/-- C5: a learned fix for a word not in the dictionary is returned alone,
whatever the fuzzy search would have produced. -/
theorem claim_C5 (st : BrailleState) (w fix : List Char) (n : Nat)
    (h1 : toLowerStr w ∉ st.dictionary)
    (h2 : alLookup (toLowerStr w) st.learned_fixes = some fix) (hn : 1 ≤ n) :
    find_suggestions st w n = [fix] := by
  unfold find_suggestions
  simp [h1, h2]

theorem claim_C5_witness :
    (toLowerStr (strL ("helo"))
        ∉ (learn_correction ⟨[], [], []⟩ (strL ("helo")) (strL ("hello"))).dictionary) ∧
    alLookup (toLowerStr (strL ("helo")))
        (learn_correction ⟨[], [], []⟩ (strL ("helo")) (strL ("hello"))).learned_fixes
      = some (strL ("hello")) ∧
    find_suggestions (learn_correction ⟨[], [], []⟩ (strL ("helo")) (strL ("hello")))
        (strL ("helo")) 3 = [strL ("hello")] :=
  ⟨by decide, by decide, claim_C5 _ _ _ _ (by decide) (by decide) (by decide)⟩

/-- C9: with an empty dictionary, empty frequency map and no learned
fixes, `find_suggestions` returns the empty list for every input (the
embedding is total, so no run ever raises). -/
theorem claim_C9 (st : BrailleState) (h1 : st.dictionary = []) (h2 : st.word_count = [])
    (h3 : st.learned_fixes = []) (w : List Char) (n : Nat) :
    find_suggestions st w n = [] := by
  unfold find_suggestions
  simp [h1, h3, alLookup]

theorem claim_C9_witness :
    (BrailleState.mk [] [] []).dictionary = [] ∧ (BrailleState.mk [] [] []).word_count = [] ∧
    (BrailleState.mk [] [] []).learned_fixes = [] ∧
    find_suggestions ⟨[], [], []⟩ (strL ("abc")) 5 = [] :=
  ⟨rfl, rfl, rfl, claim_C9 ⟨[], [], []⟩ rfl rfl rfl (strL ("abc")) 5⟩

/-- C8: adding the same word twice keeps it in the dictionary without
duplicating it, and raises its usage count by exactly two (the first add
of a fresh word setting it to one). -/
theorem claim_C8 (st : BrailleState) (w : List Char)
    (h : trimStr (toLowerStr w) ≠ []) :
    trimStr (toLowerStr w) ∈ (add_word (add_word st w) w).dictionary ∧
    (add_word (add_word st w) w).dictionary.length ≤ st.dictionary.length + 1 ∧
    (st.dictionary.Nodup → (add_word (add_word st w) w).dictionary.Nodup) ∧
    (alLookup (trimStr (toLowerStr w)) (add_word (add_word st w) w).word_count).getD 0
      = (alLookup (trimStr (toLowerStr w)) st.word_count).getD 0 + 2 ∧
    ((alLookup (trimStr (toLowerStr w)) st.word_count).getD 0 = 0 →
      (alLookup (trimStr (toLowerStr w)) (add_word st w).word_count).getD 0 = 1) := by
  simp only [add_word, h, if_neg h]
  by_cases hd : trimStr (toLowerStr w) ∈ st.dictionary
  · simp [hd, alLookup_alSet_self]
  · simp [hd, alLookup_alSet_self, List.nodup_append]

/-! ### The admission threshold (C6) -/

theorem toLowerStr_length (w : List Char) : (toLowerStr w).length = w.length :=
  List.length_map w Char.toLower

theorem claim_C6_cex :
    strL ("computer") ∈ find_suggestions
        (learn_correction ⟨[], [], []⟩ (strL ("xy")) (strL ("computer"))) (strL ("xy")) 5 ∧
    ¬ (levRef (toLowerStr (strL ("xy"))) (strL ("computer"))
        ≤ min 3 ((strL ("xy")).length / 2 + 1)) := by
  refine ⟨by decide, ?_⟩
  rw [← calculate_similarity_eq_levRef]
  decide

/-- C6 (amended): when no learned fix is recorded for the query, every
word returned by `find_suggestions` is within edit distance
`min 3 (len / 2 + 1)` of the lowercased query; a learned fix, when one
exists, is returned without any distance check. -/
theorem claim_C6_amended (st : BrailleState) (w : List Char) (n : Nat)
    (hfix : alLookup (toLowerStr w) st.learned_fixes = none) :
    ∀ s ∈ find_suggestions st w n,
      levRef (toLowerStr w) s ≤ min 3 (w.length / 2 + 1) := by
  intro s hs
  unfold find_suggestions at hs
  by_cases hd : toLowerStr w ∈ st.dictionary
  · simp only [hd, if_true, List.mem_singleton] at hs
    subst hs
    rw [levRef_self]
    exact Nat.zero_le _
  · simp only [hd, if_false, hfix] at hs
    obtain ⟨t, ht, rfl⟩ := List.mem_map.mp hs
    have ht' := List.mem_of_mem_take ht
    rw [List.mem_insertionSort] at ht'
    obtain ⟨dw, hdw, hsome⟩ := List.mem_filterMap.mp ht'
    unfold suggestionEntry at hsome
    by_cases hle : calculate_similarity (toLowerStr w) dw
        ≤ min 3 ((toLowerStr w).length / 2 + 1)
    · rw [if_pos hle] at hsome
      obtain rfl := Option.some_injective _ hsome
      rw [← calculate_similarity_eq_levRef]
      rw [toLowerStr_length] at hle
      exact hle
    · rw [if_neg hle] at hsome
      exact absurd hsome (by simp)

theorem claim_C6_amended_witness :
    alLookup (toLowerStr (strL ("helo")))
        (BrailleState.mk [strL ("hello")] [] []).learned_fixes = none ∧
    ∀ s ∈ find_suggestions ⟨[strL ("hello")], [], []⟩ (strL ("helo")) 5,
      levRef (toLowerStr (strL ("helo"))) s ≤ min 3 ((strL ("helo")).length / 2 + 1) :=
  ⟨rfl, claim_C6_amended ⟨[strL ("hello")], [], []⟩ (strL ("helo")) 5 rfl⟩

/-! ### The learned-fix invariant (C7) -/

theorem add_word_learned_fixes (st : BrailleState) (w : List Char) :
    (add_word st w).learned_fixes = st.learned_fixes := by
  unfold add_word
  dsimp only
  split <;> rfl

theorem mem_dictionary_add_word (st : BrailleState) (w d : List Char)
    (hd : d ∈ st.dictionary) : d ∈ (add_word st w).dictionary := by
  unfold add_word
  dsimp only
  split
  · exact hd
  · by_cases h2 : trimStr (toLowerStr w) ∈ st.dictionary <;> simp [h2, hd]

theorem add_word_inserts (st : BrailleState) (w : List Char)
    (h : trimStr (toLowerStr w) ≠ []) :
    trimStr (toLowerStr w) ∈ (add_word st w).dictionary := by
  unfold add_word
  dsimp only
  rw [if_neg h]
  by_cases h2 : trimStr (toLowerStr w) ∈ st.dictionary <;> simp [h2]

theorem mem_values_alSet {α β : Type} [DecidableEq α] (k : α) (val : β)
    (l : List (α × β)) (v : β) (hv : v ∈ (alSet k val l).map Prod.snd) :
    v = val ∨ v ∈ l.map Prod.snd := by
  induction l with
  | nil =>
    simp [alSet] at hv
    exact Or.inl hv
  | cons p rest ih =>
    by_cases hp : p.1 = k
    · simp only [alSet, if_pos hp, List.map_cons] at hv
      rcases List.mem_cons.mp hv with h | h
      · exact Or.inl h
      · exact Or.inr (List.mem_cons_of_mem _ h)
    · simp only [alSet, if_neg hp, List.map_cons] at hv
      rcases List.mem_cons.mp hv with h | h
      · exact Or.inr (h ▸ List.mem_cons_self _ _)
      · rcases ih h with h' | h'
        · exact Or.inl h'
        · exact Or.inr (List.mem_cons_of_mem _ h')

theorem claim_C7_cex :
    Reachable (learn_correction initial_state (strL ("ab")) (strL (" hello "))) ∧
    strL (" hello ") ∈ (learn_correction initial_state (strL ("ab"))
        (strL (" hello "))).learned_fixes.map Prod.snd ∧
    strL (" hello ") ∉ (learn_correction initial_state (strL ("ab"))
        (strL (" hello "))).dictionary :=
  ⟨Reachable.learn _ _ _ Reachable.init, by decide, by decide⟩

/-- C7 (amended): in every reachable state, every value stored in
`learnedFixes`, after the normalization `addWord` applies to it
(lowercase and trim), is a member of the word set whenever that
normalization is non-empty; the raw value itself need not be a member
(it is stored untrimmed). -/
theorem claim_C7_amended (st : BrailleState) (h : Reachable st) :
    ∀ v ∈ st.learned_fixes.map Prod.snd,
      trimStr (toLowerStr v) ≠ [] → trimStr (toLowerStr v) ∈ st.dictionary := by
  induction h with
  | init =>
    intro v hv hne
    rw [show initial_state.learned_fixes = [] from by decide] at hv
    simp at hv
  | add st w hst ih =>
    intro v hv hne
    rw [add_word_learned_fixes] at hv
    exact mem_dictionary_add_word _ _ _ (ih v hv hne)
  | learn st w c hst ih =>
    intro v hv hne
    unfold learn_correction at hv ⊢
    rw [add_word_learned_fixes] at hv
    rcases mem_values_alSet _ _ _ _ hv with rfl | hold
    · exact add_word_inserts _ _ hne
    · exact mem_dictionary_add_word _ _ _ (ih v hold hne)

theorem claim_C7_amended_witness :
    strL (" hello ") ∈ (learn_correction initial_state (strL ("ab"))
        (strL (" hello "))).learned_fixes.map Prod.snd ∧
    trimStr (toLowerStr (strL (" hello "))) ≠ [] ∧
    trimStr (toLowerStr (strL (" hello "))) ∈ (learn_correction initial_state (strL ("ab"))
        (strL (" hello "))).dictionary :=
  ⟨by decide, by decide,
    claim_C7_amended _ (Reachable.learn _ _ _ Reachable.init) (strL (" hello "))
      (by decide) (by decide)⟩

/-! ### Queries do not mutate the Lexicon (C10) -/

/-- C10: the query operations — braille decoding, similarity, suggestion
search, autocorrect and stats — return the Lexicon state exactly as they
received it; only `add_word` and `learn_correction` build new states. -/
theorem claim_C10 (st : BrailleState) (input w1 w2 w text : List Char) (n m : Nat) :
    (convert_braille_input_m st input).2 = st ∧
    (calculate_similarity_m st w1 w2).2 = st ∧
    (find_suggestions_m st w n).2 = st ∧
    (autocorrect_m st text m).2 = st ∧
    (get_stats_m st).2 = st := by
  refine ⟨rfl, rfl, rfl, ?_, rfl⟩
  have key : ∀ (ws : List (List Char)) (acc : List CorrectionResult × BrailleState),
      (ws.foldl (autocorrectToken_m m) acc).2 = acc.2 := by
    intro ws
    induction ws with
    | nil => intro acc; rfl
    | cons x xs ih =>
      intro acc
      rw [List.foldl_cons, ih]
      unfold autocorrectToken_m find_suggestions_m
      dsimp only
      split
      · split <;> rfl
      · rfl
  unfold autocorrect_m
  rw [key]
  split <;> rfl

theorem claim_C8_witness :
    trimStr (toLowerStr (strL (" Hi "))) ≠ [] ∧
    (trimStr (toLowerStr (strL (" Hi ")))
        ∈ (add_word (add_word ⟨[], [], []⟩ (strL (" Hi "))) (strL (" Hi "))).dictionary ∧
      (add_word (add_word ⟨[], [], []⟩ (strL (" Hi "))) (strL (" Hi "))).dictionary.length
        ≤ (BrailleState.mk [] [] []).dictionary.length + 1 ∧
      ((BrailleState.mk [] [] []).dictionary.Nodup →
        (add_word (add_word ⟨[], [], []⟩ (strL (" Hi "))) (strL (" Hi "))).dictionary.Nodup) ∧
      (alLookup (trimStr (toLowerStr (strL (" Hi "))))
          (add_word (add_word ⟨[], [], []⟩ (strL (" Hi "))) (strL (" Hi "))).word_count).getD 0
        = (alLookup (trimStr (toLowerStr (strL (" Hi "))))
            (BrailleState.mk [] [] []).word_count).getD 0 + 2 ∧
      ((alLookup (trimStr (toLowerStr (strL (" Hi "))))
          (BrailleState.mk [] [] []).word_count).getD 0 = 0 →
        (alLookup (trimStr (toLowerStr (strL (" Hi "))))
            (add_word ⟨[], [], []⟩ (strL (" Hi "))).word_count).getD 0 = 1)) :=
  ⟨by decide, claim_C8 ⟨[], [], []⟩ (strL (" Hi ")) (by decide)⟩

/-! ### The decoding invariant (C3) -/

theorem alLookup_mem {α β : Type} [DecidableEq α] (k : α) (v : β) (l : List (α × β))
    (h : alLookup k l = some v) : (k, v) ∈ l := by
  induction l with
  | nil => cases h
  | cons p rest ih =>
    by_cases hp : p.1 = k
    · rw [alLookup, if_pos hp] at h
      obtain rfl := Option.some_injective _ h
      have : p = (k, p.2) := by
        rw [← hp]
      rw [← this]
      exact List.mem_cons_self _ _
    · rw [alLookup, if_neg hp] at h
      exact List.mem_cons_of_mem _ (ih h)

theorem convStep_foldl_keys (l : List Char) (res : List Char) (acc : List Nat)
    (h : ∀ c ∈ l, (BRAILLE_KEYS c).isSome) :
    List.foldl convStep (res, acc) l = (res, dotsFold l acc) := by
  induction l generalizing acc with
  | nil => rfl
  | cons c cs ih =>
    obtain ⟨d, hd⟩ := Option.isSome_iff_exists.mp (h c (List.mem_cons_self _ _))
    have hcs : ∀ x ∈ cs, (BRAILLE_KEYS x).isSome := fun x hx => h x (List.mem_cons_of_mem _ hx)
    have hne : c ≠ ' ' := by
      intro he
      rw [he] at hd
      cases hd
    rw [List.foldl_cons,
      show convStep (res, acc) c = (res, acc.insert d) from by
        unfold convStep
        rw [if_neg hne, hd],
      ih _ hcs]
    unfold dotsFold
    rw [List.foldl_cons, hd]

theorem dotsFold_mem (l : List Char) (acc : List Nat) (x : Nat) :
    x ∈ dotsFold l acc ↔ x ∈ acc ∨ ∃ c ∈ l, BRAILLE_KEYS c = some x := by
  induction l generalizing acc with
  | nil => simp [dotsFold]
  | cons ch cs ih =>
    rw [show dotsFold (ch :: cs) acc = dotsFold cs
        (match BRAILLE_KEYS ch with
          | some d => acc.insert d
          | none => acc) from by
      unfold dotsFold
      rw [List.foldl_cons]]
    cases hch : BRAILLE_KEYS ch with
    | none =>
      rw [ih]
      simp only [List.mem_cons]
      constructor
      · rintro (ha | ⟨c, hc, he⟩)
        · exact Or.inl ha
        · exact Or.inr ⟨c, Or.inr hc, he⟩
      · rintro (ha | ⟨c, hc | hc, he⟩)
        · exact Or.inl ha
        · rw [hc, hch] at he
          cases he
        · exact Or.inr ⟨c, hc, he⟩
    | some d =>
      rw [ih]
      simp only [List.mem_insert_iff, List.mem_cons]
      constructor
      · rintro ((ha | ha) | ⟨c, hc, he⟩)
        · exact Or.inr ⟨ch, Or.inl rfl, by rw [hch, ha]⟩
        · exact Or.inl ha
        · exact Or.inr ⟨c, Or.inr hc, he⟩
      · rintro (ha | ⟨c, hc | hc, he⟩)
        · exact Or.inl (Or.inr ha)
        · rw [hc, hch] at he
          obtain rfl := Option.some_injective _ he
          exact Or.inl (Or.inl rfl)
        · exact Or.inr ⟨c, hc, he⟩

theorem dotsFold_nodup (l : List Char) (acc : List Nat) (h : acc.Nodup) :
    (dotsFold l acc).Nodup := by
  induction l generalizing acc with
  | nil => exact h
  | cons ch cs ih =>
    rw [show dotsFold (ch :: cs) acc = dotsFold cs
        (match BRAILLE_KEYS ch with
          | some d => acc.insert d
          | none => acc) from by
      unfold dotsFold
      rw [List.foldl_cons]]
    cases hch : BRAILLE_KEYS ch with
    | none => exact ih _ h
    | some d => exact ih _ h.insert

theorem dotsFold_perm (l1 l2 : List Char) (h : l1.Perm l2) :
    (dotsFold l1 []).Perm (dotsFold l2 []) := by
  rw [List.perm_ext_iff_of_nodup (dotsFold_nodup l1 [] (by simp))
    (dotsFold_nodup l2 [] (by simp))]
  intro x
  rw [dotsFold_mem, dotsFold_mem]
  constructor
  · rintro (ha | ⟨c, hc, he⟩)
    · cases ha
    · exact Or.inr ⟨c, h.mem_iff.mp hc, he⟩
  · rintro (ha | ⟨c, hc, he⟩)
    · cases ha
    · exact Or.inr ⟨c, h.mem_iff.mpr hc, he⟩

theorem dots_to_letter_perm (d1 d2 : List Nat) (h : d1.Perm d2) :
    dots_to_letter d1 = dots_to_letter d2 := by
  unfold dots_to_letter
  rw [List.eq_of_perm_of_sorted
    (((List.perm_insertionSort _ _).trans h).trans (List.perm_insertionSort _ _).symm)
    (List.sorted_insertionSort _ _) (List.sorted_insertionSort _ _)]

theorem DOT_TO_LETTER_facts : ∀ pc ∈ DOT_TO_LETTER,
    (∀ c ∈ pc.1.map dotKey, (BRAILLE_KEYS c).isSome) ∧
    dotsFold (pc.1.map dotKey) [] ≠ [] ∧
    dots_to_letter (dotsFold (pc.1.map dotKey) []) = pc.2 := by
  decide

/-- C3: for every dot pattern of the letter table and every input that
arranges the chord keys of that pattern's dots in any order and any
letter case, decoding yields exactly the letter the table assigns. -/
theorem claim_C3 (p : List Nat) (c : Char) (hp : alLookup p DOT_TO_LETTER = some c)
    (input : List Char) (hperm : (input.map Char.toUpper).Perm (p.map dotKey)) :
    convert_braille_input input = [c] := by
  obtain ⟨hkeys, hDne', hval⟩ := DOT_TO_LETTER_facts (p, c) (alLookup_mem _ _ _ hp)
  have hkeys' : ∀ ch ∈ input.map Char.toUpper, (BRAILLE_KEYS ch).isSome := fun ch hch =>
    hkeys ch (hperm.mem_iff.mp hch)
  have hDperm := dotsFold_perm _ _ hperm
  have hDne : dotsFold (input.map Char.toUpper) [] ≠ [] := by
    intro h0
    rw [h0] at hDperm
    exact hDne' hDperm.symm.eq_nil
  unfold convert_braille_input
  rw [convStep_foldl_keys _ _ _ hkeys']
  dsimp only
  rw [if_neg hDne, dots_to_letter_perm _ _ hDperm, hval, List.nil_append]

theorem claim_C3_witness :
    alLookup [1, 4] DOT_TO_LETTER = some 'c' ∧
    ((strL ("kD")).map Char.toUpper).Perm ([1, 4].map dotKey) ∧
    convert_braille_input (strL ("kD")) = ['c'] :=
  ⟨by decide, by decide, claim_C3 [1, 4] 'c' (by decide) (strL ("kD")) (by decide)⟩

/-! ### The end-to-end `autocorrect("helo")` scenario (C1) -/

theorem filterMap_suggestionEntry (st : BrailleState) (word : List Char) (md : Nat)
    (l : List (List Char)) :
    l.filterMap (suggestionEntry st word md)
      = (l.filter (fun dw => decide (calculate_similarity word dw ≤ md))).map
          (fun dw => (dw,
            (1 - (calculate_similarity word dw : ℚ)
                / ((max word.length dw.length : Nat) : ℚ)) * 0.7
              + ((((alLookup dw st.word_count).getD 1 : Nat) : ℚ) / 100) * 0.3,
            calculate_similarity word dw)) := by
  induction l with
  | nil => rfl
  | cons x xs ih =>
    rw [List.filterMap_cons, List.filter_cons]
    by_cases hx : calculate_similarity word x ≤ md
    · rw [show suggestionEntry st word md x = some (x,
          (1 - (calculate_similarity word x : ℚ)
              / ((max word.length x.length : Nat) : ℚ)) * 0.7
            + ((((alLookup x st.word_count).getD 1 : Nat) : ℚ) / 100) * 0.3,
          calculate_similarity word x) from by
        unfold suggestionEntry
        dsimp only
        rw [if_pos hx]]
      rw [if_pos (by simpa using hx), ih, List.map_cons]
    · rw [show suggestionEntry st word md x = none from by
        unfold suggestionEntry
        dsimp only
        rw [if_neg hx]]
      rw [if_neg (by simpa using hx), ih]

theorem insertionSort_head_of_max (l : List (List Char × ℚ × Nat)) (t : List Char × ℚ × Nat)
    (ht : t ∈ l) (hmax : ∀ u ∈ l, u = t ∨ u.2.1 < t.2.1) :
    ∃ rest, List.insertionSort (fun a b => b.2.1 ≤ a.2.1) l = t :: rest := by
  haveI htot : IsTotal (List Char × ℚ × Nat) (fun a b => b.2.1 ≤ a.2.1) :=
    ⟨fun a b => le_total b.2.1 a.2.1⟩
  haveI htr : IsTrans (List Char × ℚ × Nat) (fun a b => b.2.1 ≤ a.2.1) :=
    ⟨fun a b c h1 h2 => le_trans h2 h1⟩
  cases hs : List.insertionSort (fun a b => b.2.1 ≤ a.2.1) l with
  | nil =>
    have ht' : t ∈ List.insertionSort (fun a b => b.2.1 ≤ a.2.1) l :=
      (List.perm_insertionSort _ l).mem_iff.mpr ht
    rw [hs] at ht'
    cases ht'
  | cons h rest =>
    have hperm := List.perm_insertionSort (fun a b => b.2.1 ≤ a.2.1) l
    have hsorted := List.sorted_insertionSort (fun a b => b.2.1 ≤ a.2.1) l
    rw [hs] at hperm hsorted
    have hh : h ∈ l := hperm.mem_iff.mp (List.mem_cons_self _ _)
    rcases hmax h hh with rfl | hlt
    · exact ⟨rest, rfl⟩
    · have ht' : t ∈ h :: rest := hperm.mem_iff.mpr ht
      rcases List.mem_cons.mp ht' with rfl | htin
      · exact absurd hlt (lt_irrefl _)
      · have hle := (List.sorted_cons.mp hsorted).1 t htin
        exact absurd hlt (not_lt.mpr hle)

/-- C1 is a code bug: on the freshly initialized system,
`autocorrect("helo", 3)` does not return "hello" as best match.  Because
the letter O of "helo" is a chord key, the braille-trigger heuristic
fires and the codec mangles "helo" into "hel?"; the cleaned word "hel"
is then fuzzy-matched and "her" (distance 1) outranks "hello"
(distance 2), so the single returned result has best match "her". -/
theorem claim_C1_bug :
    (autocorrect initial_state (strL ("helo")) 3).map (fun r => r.best_match)
      = [strL ("her")] ∧ strL ("her") ≠ strL ("hello") := by
  have hd1 : calculate_similarity (strL ("hel")) (strL ("her")) = 1 := by decide
  have hm1 : max (strL ("hel")).length (strL ("her")).length = 3 := by decide
  have hf1 : (alLookup (strL ("her")) initial_state.word_count).getD 1 = 1 := by decide
  have hfs : ∃ rest, find_suggestions initial_state (strL ("hel")) 3 = strL ("her") :: rest := by
    have hword : toLowerStr (strL ("hel")) = strL ("hel") := by decide
    have hnotmem : strL ("hel") ∉ initial_state.dictionary := by decide
    have hlf : alLookup (strL ("hel")) initial_state.learned_fixes = none := by decide
    have hmd : min 3 ((strL ("hel")).length / 2 + 1) = 2 := by decide
    have hfilter : initial_state.dictionary.filter
        (fun dw => decide (calculate_similarity (strL ("hel")) dw ≤ 2))
        = [strL ("the"), strL ("all"), strL ("had"), strL ("her"), strL ("get"), strL ("has"), strL ("him"), strL ("his"), strL ("how"), strL ("new"), strL ("see"), strL ("let"), strL ("she"), strL ("here"), strL ("tell"), strL ("well"), strL ("when"), strL ("hello")] := by decide
    unfold find_suggestions
    rw [hword]
    dsimp only
    rw [if_neg hnotmem, hlf]
    dsimp only
    rw [hmd, filterMap_suggestionEntry, hfilter]
    obtain ⟨rest0, hsort⟩ := insertionSort_head_of_max _ _
      (List.mem_map_of_mem
        (fun dw => (dw,
        (1 - (calculate_similarity (strL ("hel")) dw : ℚ)
            / ((max (strL ("hel")).length dw.length : Nat) : ℚ)) * 0.7
          + ((((alLookup dw initial_state.word_count).getD 1 : Nat) : ℚ) / 100) * 0.3,
        calculate_similarity (strL ("hel")) dw))
        (show strL ("her") ∈ [strL ("the"), strL ("all"), strL ("had"), strL ("her"), strL ("get"), strL ("has"), strL ("him"), strL ("his"), strL ("how"), strL ("new"), strL ("see"), strL ("let"), strL ("she"), strL ("here"), strL ("tell"), strL ("well"), strL ("when"), strL ("hello")] from by decide))
      (by
        intro u hu
        obtain ⟨dw, hdw, rfl⟩ := List.mem_map.mp hu
        fin_cases hdw
        · right
          have h1 : calculate_similarity (strL ("hel")) (strL ("the")) = 2 := by decide
          have h2 : max (strL ("hel")).length (strL ("the")).length = 3 := by decide
          have h3 : (alLookup (strL ("the")) initial_state.word_count).getD 1 = 1 := by decide
          dsimp only
          rw [h1, h2, h3, hd1, hm1, hf1]
          norm_num
        · right
          have h1 : calculate_similarity (strL ("hel")) (strL ("all")) = 2 := by decide
          have h2 : max (strL ("hel")).length (strL ("all")).length = 3 := by decide
          have h3 : (alLookup (strL ("all")) initial_state.word_count).getD 1 = 1 := by decide
          dsimp only
          rw [h1, h2, h3, hd1, hm1, hf1]
          norm_num
        · right
          have h1 : calculate_similarity (strL ("hel")) (strL ("had")) = 2 := by decide
          have h2 : max (strL ("hel")).length (strL ("had")).length = 3 := by decide
          have h3 : (alLookup (strL ("had")) initial_state.word_count).getD 1 = 1 := by decide
          dsimp only
          rw [h1, h2, h3, hd1, hm1, hf1]
          norm_num
        · exact Or.inl rfl
        · right
          have h1 : calculate_similarity (strL ("hel")) (strL ("get")) = 2 := by decide
          have h2 : max (strL ("hel")).length (strL ("get")).length = 3 := by decide
          have h3 : (alLookup (strL ("get")) initial_state.word_count).getD 1 = 1 := by decide
          dsimp only
          rw [h1, h2, h3, hd1, hm1, hf1]
          norm_num
        · right
          have h1 : calculate_similarity (strL ("hel")) (strL ("has")) = 2 := by decide
          have h2 : max (strL ("hel")).length (strL ("has")).length = 3 := by decide
          have h3 : (alLookup (strL ("has")) initial_state.word_count).getD 1 = 1 := by decide
          dsimp only
          rw [h1, h2, h3, hd1, hm1, hf1]
          norm_num
        · right
          have h1 : calculate_similarity (strL ("hel")) (strL ("him")) = 2 := by decide
          have h2 : max (strL ("hel")).length (strL ("him")).length = 3 := by decide
          have h3 : (alLookup (strL ("him")) initial_state.word_count).getD 1 = 1 := by decide
          dsimp only
          rw [h1, h2, h3, hd1, hm1, hf1]
          norm_num
        · right
          have h1 : calculate_similarity (strL ("hel")) (strL ("his")) = 2 := by decide
          have h2 : max (strL ("hel")).length (strL ("his")).length = 3 := by decide
          have h3 : (alLookup (strL ("his")) initial_state.word_count).getD 1 = 1 := by decide
          dsimp only
          rw [h1, h2, h3, hd1, hm1, hf1]
          norm_num
        · right
          have h1 : calculate_similarity (strL ("hel")) (strL ("how")) = 2 := by decide
          have h2 : max (strL ("hel")).length (strL ("how")).length = 3 := by decide
          have h3 : (alLookup (strL ("how")) initial_state.word_count).getD 1 = 1 := by decide
          dsimp only
          rw [h1, h2, h3, hd1, hm1, hf1]
          norm_num
        · right
          have h1 : calculate_similarity (strL ("hel")) (strL ("new")) = 2 := by decide
          have h2 : max (strL ("hel")).length (strL ("new")).length = 3 := by decide
          have h3 : (alLookup (strL ("new")) initial_state.word_count).getD 1 = 1 := by decide
          dsimp only
          rw [h1, h2, h3, hd1, hm1, hf1]
          norm_num
        · right
          have h1 : calculate_similarity (strL ("hel")) (strL ("see")) = 2 := by decide
          have h2 : max (strL ("hel")).length (strL ("see")).length = 3 := by decide
          have h3 : (alLookup (strL ("see")) initial_state.word_count).getD 1 = 1 := by decide
          dsimp only
          rw [h1, h2, h3, hd1, hm1, hf1]
          norm_num
        · right
          have h1 : calculate_similarity (strL ("hel")) (strL ("let")) = 2 := by decide
          have h2 : max (strL ("hel")).length (strL ("let")).length = 3 := by decide
          have h3 : (alLookup (strL ("let")) initial_state.word_count).getD 1 = 1 := by decide
          dsimp only
          rw [h1, h2, h3, hd1, hm1, hf1]
          norm_num
        · right
          have h1 : calculate_similarity (strL ("hel")) (strL ("she")) = 2 := by decide
          have h2 : max (strL ("hel")).length (strL ("she")).length = 3 := by decide
          have h3 : (alLookup (strL ("she")) initial_state.word_count).getD 1 = 1 := by decide
          dsimp only
          rw [h1, h2, h3, hd1, hm1, hf1]
          norm_num
        · right
          have h1 : calculate_similarity (strL ("hel")) (strL ("here")) = 2 := by decide
          have h2 : max (strL ("hel")).length (strL ("here")).length = 4 := by decide
          have h3 : (alLookup (strL ("here")) initial_state.word_count).getD 1 = 1 := by decide
          dsimp only
          rw [h1, h2, h3, hd1, hm1, hf1]
          norm_num
        · right
          have h1 : calculate_similarity (strL ("hel")) (strL ("tell")) = 2 := by decide
          have h2 : max (strL ("hel")).length (strL ("tell")).length = 4 := by decide
          have h3 : (alLookup (strL ("tell")) initial_state.word_count).getD 1 = 1 := by decide
          dsimp only
          rw [h1, h2, h3, hd1, hm1, hf1]
          norm_num
        · right
          have h1 : calculate_similarity (strL ("hel")) (strL ("well")) = 2 := by decide
          have h2 : max (strL ("hel")).length (strL ("well")).length = 4 := by decide
          have h3 : (alLookup (strL ("well")) initial_state.word_count).getD 1 = 1 := by decide
          dsimp only
          rw [h1, h2, h3, hd1, hm1, hf1]
          norm_num
        · right
          have h1 : calculate_similarity (strL ("hel")) (strL ("when")) = 2 := by decide
          have h2 : max (strL ("hel")).length (strL ("when")).length = 4 := by decide
          have h3 : (alLookup (strL ("when")) initial_state.word_count).getD 1 = 1 := by decide
          dsimp only
          rw [h1, h2, h3, hd1, hm1, hf1]
          norm_num
        · right
          have h1 : calculate_similarity (strL ("hel")) (strL ("hello")) = 2 := by decide
          have h2 : max (strL ("hel")).length (strL ("hello")).length = 5 := by decide
          have h3 : (alLookup (strL ("hello")) initial_state.word_count).getD 1 = 1 := by decide
          dsimp only
          rw [h1, h2, h3, hd1, hm1, hf1]
          norm_num)
    rw [hsort]
    exact ⟨_, rfl⟩
  obtain ⟨rest, hrest⟩ := hfs
  refine ⟨?_, by decide⟩
  unfold autocorrect
  rw [if_pos (show (((strL ("helo")).map Char.toUpper).any
      fun c => (strL ("DWQKOP")).contains c) = true from by decide)]
  dsimp only
  rw [show convert_braille_input (strL ("helo")) = strL ("hel?") from by decide]
  rw [show splitWS (strL ("hel?")) = [strL ("hel?")] from by decide]
  simp only [List.map_cons, List.map_nil]
  rw [show (strL ("hel?")).filter (fun c => c.isAlpha) = strL ("hel") from by decide]
  rw [if_pos (show strL ("hel") ≠ ([] : List Char) from by decide), hrest]
